import Mathlib

/-!
Verification of the dev-tooling-go command-line bootstrap helper.

Shallow embedding of the Go sources:
- package logging (logging/logging.go): leveled logger factory and the
  context accessors AddToContext / FromContext;
- package fileutils (fileutils context accessor): ApplyRootDirToContext /
  RootDirFromContext;
- package commandline (registry.go, current variant: the one whose cleanup
  ordering and construction-time signal bridge the shipped test file
  registry_test.go exercises): RootCommandOptions, validate, New,
  PersistentPreRunE, Cleanup.

Modelling conventions:
- A Go context is a chain of WithValue wrappers; value lookup walks from the
  most recently added pair outward.  We model it as a list of key/value pairs
  with lookup returning the first match.  Keys are typed in Go (distinct
  string-backed key types never compare equal to plain strings), so keys are
  an inductive type with one constructor per key type seen in the sources.
- Go interface values stored in a context may be the nil interface; storing a
  nil fs.FS stores a nil interface value, and a type assertion on it fails.
  GoVal.vnil models the nil interface value.
- Panics are modelled as the error branch of Except.
- Process-level side effects (OS signal subscription via
  signal.NotifyContext, the background watcher goroutine, releasing both via
  the returned stop function) are modelled by an explicit World record
  threaded through the operations, together with an append-only trace of
  events, so that ordering claims about the cleanup chain are statements
  about the trace.
-/

namespace DevToolingGo

/-- Logrus severity levels used by the sources (warn, info, debug, trace). -/
inductive Level where
  | warn
  | info
  | debug
  | trace
deriving DecidableEq, Repr

/-- Verbosity switch from PersistentPreRunE: case 1 info, case 2 debug,
case 3 trace, default warn.  Taken verbatim from the Go switch statement. -/
def levelOfVerbosity (c : Nat) : Level :=
  if c = 1 then Level.info
  else if c = 2 then Level.debug
  else if c = 3 then Level.trace
  else Level.warn

/-- A logrus logger as configured by logging.New: an output sink and a
severity level.  The formatter set by logging.New is a fixed constant and
carries no information relevant to any claim, so it is omitted.  Sinks are
identified by a number. -/
structure Logger where
  stream : Nat
  level : Level
deriving DecidableEq, Repr

/-- A filesystem handle (fs.FS).  Tests use fstest.MapFS, a map from path to
file contents; we model a handle as such an association list. -/
abbrev FS := List (String × String)

/-- Context keys.  Go context keys are typed values: the logging package key
(type contextLogKey, value logger) and the fileutils key (type contextKey,
value rootDir) are distinct from each other and from any plain string key,
which the constructors of this inductive capture. -/
inductive GoKey where
  | loggerKey
  | rootDirKey
  | strKey (s : String)
deriving DecidableEq, Repr

/-- Dynamic values stored in a context.  vnil is the nil interface value. -/
inductive GoVal where
  | vnil
  | vlogger (l : Logger)
  | vfs (f : FS)
  | vstr (s : String)
deriving DecidableEq, Repr

/-- A Go context: chain of WithValue pairs, most recent first. -/
abbrev Ctx := List (GoKey × GoVal)

/-- Context value lookup (ctx.Value): first matching key wins, which mirrors
the innermost WithValue wrapper shadowing outer ones. -/
def ctxValue (ctx : Ctx) (k : GoKey) : Option GoVal :=
  match ctx with
  | [] => none
  | (k2, v) :: rest => if k2 = k then some v else ctxValue rest k

/-- context.WithValue: derive a context with one more pair. -/
def withValue (ctx : Ctx) (k : GoKey) (v : GoVal) : Ctx :=
  (k, v) :: ctx

namespace logging

/-- logging.New: builds a logger writing to the given stream at the given
level (the constant formatter configuration is omitted, see Logger). -/
def New (stream : Nat) (level : Level) : Logger :=
  { stream := stream, level := level }

/-- logging.AddToContext: store the logger under the logging package key. -/
def AddToContext (ctx : Ctx) (logger : Logger) : Ctx :=
  withValue ctx GoKey.loggerKey (GoVal.vlogger logger)

/-- logging.FromContext: retrieve the logger; the Go code panics when the
value is absent or of the wrong type, modelled as the error branch. -/
def FromContext (ctx : Ctx) : Except String Logger :=
  match ctxValue ctx GoKey.loggerKey with
  | some (GoVal.vlogger l) => Except.ok l
  | _ => Except.error "no logger set in context"

end logging

namespace fileutils

/-- fileutils.ApplyRootDirToContext: stores the given fs.FS under the
rootDir key with no validation; a nil handle (none) is stored as the nil
interface value, exactly as Go converts a nil fs.FS to a nil any. -/
def ApplyRootDirToContext (ctx : Ctx) (files : Option FS) : Ctx :=
  withValue ctx GoKey.rootDirKey
    (match files with
     | none => GoVal.vnil
     | some f => GoVal.vfs f)

/-- fileutils.RootDirFromContext: the type assertion
ctx.Value(rootDirKey).(fs.FS) succeeds only on a non-nil value whose dynamic
type implements fs.FS; on the nil interface or any other type it fails and
the function panics (error branch). -/
def RootDirFromContext (ctx : Ctx) : Except String FS :=
  match ctxValue ctx GoKey.rootDirKey with
  | some (GoVal.vfs f) => Except.ok f
  | _ => Except.error "No root dir found in context, bad code path"

end fileutils

/-- Process-level side-effect events, recorded in order of occurrence.
sigSubscribe is the OS signal subscription made by signal.NotifyContext at
construction of a CLI; sigStop is the invocation of the stop function it
returned (releasing the subscription and letting the watcher goroutine
exit); user tags the observable effect of an instrumented caller-supplied
cleanup procedure. -/
inductive Event where
  | sigSubscribe
  | sigStop
  | user (tag : String)
deriving DecidableEq, Repr

/-- Process state threaded through the stateful operations: the number of
live OS signal subscriptions, the number of live background watcher
goroutines, and the append-only trace of events. -/
structure World where
  sigSubs : Nat
  goroutines : Nat
  trace : List Event
deriving DecidableEq, Repr

/-- A caller-supplied cleanup procedure: a zero-argument side-effecting
action, modelled as a transformer of the process state. -/
abbrev CleanupFunc := World → World

/-- ContextModifiers: a function from context to context (commandline
package type of the same name). -/
abbrev ContextModifiers := Ctx → Ctx

namespace commandline

/-- RootCommandOptions from the commandline package: name, description,
version, context modifiers and cleanup functions. -/
structure RootCommandOptions where
  Name : String
  Description : String
  Version : String
  Modifiers : List ContextModifiers
  CleanupFuncs : List CleanupFunc

/-- validate: name then version checked for emptiness, in that order, with
the respective error messages from the source. -/
def RootCommandOptions.validate (options : RootCommandOptions) :
    Except String Unit :=
  if options.Name = "" then Except.error "root command must have name"
  else if options.Version = "" then Except.error "root command must have version"
  else Except.ok ()

/-- The stop function returned by signal.NotifyContext: releases the signal
subscription and cancels the watcher context, which makes the watcher
goroutine exit.  New prepends it to the cleanup chain. -/
def stopProc : CleanupFunc := fun w =>
  { w with
      sigSubs := w.sigSubs - 1
      goroutines := w.goroutines - 1
      trace := w.trace ++ [Event.sigStop] }

/-- The CLI structure: the root command is represented by the fields New
sets on it (Use, Version, Short, the primed root context, and the modifier
list captured by the PersistentPreRunE closure), together with the combined
cleanup chain. -/
structure CLI where
  use : String
  version : String
  short : String
  rootCtx : Ctx
  modifiers : List ContextModifiers
  cleanups : List CleanupFunc

/-- New from the current commandline variant: validate the options; on
failure return the validation error with no side effect; on success call
signal.NotifyContext once (one subscription, one watcher goroutine), build
the root command, and prepend the internal stop to the caller-supplied
cleanup functions.  The signal-primed root context starts empty of values. -/
def New (options : RootCommandOptions) (w : World) :
    Except String CLI × World :=
  match options.validate with
  | Except.error e => (Except.error e, w)
  | Except.ok _ =>
    let w2 : World :=
      { w with
          sigSubs := w.sigSubs + 1
          goroutines := w.goroutines + 1
          trace := w.trace ++ [Event.sigSubscribe] }
    let allCleanups : List CleanupFunc := stopProc :: options.CleanupFuncs
    (Except.ok
      { use := options.Name
        version := options.Version
        short := options.Description
        rootCtx := []
        modifiers := options.Modifiers
        cleanups := allCleanups }, w2)

/-- PersistentPreRunE of the current variant: read the verbosity count,
map it to a level by the switch, build a logger on the command error
stream, store it in the incoming command context, apply the modifiers in
registration order, and install the result as the command context.  The
hook performs no process-level side effect (in particular no signal
registration), which the unchanged World return makes explicit. -/
def persistentPreRunE (cli : CLI) (verbosityCount : Nat) (errStream : Nat)
    (ctx : Ctx) (w : World) : Ctx × World :=
  let level := levelOfVerbosity verbosityCount
  let logger := logging.New errStream level
  let ctx2 := logging.AddToContext ctx logger
  let ctx3 := cli.modifiers.foldl (fun c m => m c) ctx2
  (ctx3, w)

/-- Iterated firing of the pre-run hook, as happens across repeated or
nested command invocations: each firing receives the context produced by
the previous one. -/
def fireHookN (cli : CLI) (v s : Nat) : Nat → Ctx → World → Ctx × World
  | 0, ctx, w => (ctx, w)
  | n + 1, ctx, w =>
    let p := persistentPreRunE cli v s ctx w
    fireHookN cli v s n p.1 p.2

/-- Running a list of cleanup procedures in order. -/
def runProcs (procs : List CleanupFunc) (w : World) : World :=
  procs.foldl (fun w2 f => f w2) w

/-- CLI.Cleanup: run every procedure of the combined chain in order; there
is no guard, no error channel and no short-circuit in the source loop. -/
def CLI.Cleanup (cli : CLI) (w : World) : World :=
  runProcs cli.cleanups w

end commandline

/-- Instrumented caller cleanup procedure appending a tagged event to the
trace, the shape the test suite uses to observe the execution order. -/
def userProc (tag : String) : CleanupFunc := fun w =>
  { w with trace := w.trace ++ [Event.user tag] }

/-- Caller modifier inserting one key/value pair, the shape the test suite
uses for context modifiers. -/
def mkModifier (k : GoKey) (v : GoVal) : ContextModifiers := fun ctx =>
  withValue ctx k v

/-- Fresh process state: no subscriptions, no goroutines, empty trace. -/
def w0 : World := { sigSubs := 0, goroutines := 0, trace := [] }

/-- Process state right after a successful construction from w0. -/
def w1 : World :=
  { sigSubs := 1, goroutines := 1, trace := [Event.sigSubscribe] }

/-- Options of the shipped test suite: valid name and version, no modifiers,
no cleanup functions. -/
def demoOptions : commandline.RootCommandOptions :=
  { Name := "testcli"
    Description := "A test CLI application"
    Version := "1.0.0"
    Modifiers := []
    CleanupFuncs := [] }

/-- The CLI that New builds from demoOptions. -/
def demoCLI : commandline.CLI :=
  { use := "testcli"
    version := "1.0.0"
    short := "A test CLI application"
    rootCtx := []
    modifiers := []
    cleanups := [commandline.stopProc] }

/-- Options with two instrumented cleanup procedures (the TestCleanup_Order
scenario: user1 then user2). -/
def orderOptions : commandline.RootCommandOptions :=
  { Name := "testcli"
    Description := "A test CLI application"
    Version := "1.0.0"
    Modifiers := []
    CleanupFuncs := [userProc "user1", userProc "user2"] }

/-- The CLI that New builds from orderOptions. -/
def orderCLI : commandline.CLI :=
  { use := "testcli"
    version := "1.0.0"
    short := "A test CLI application"
    rootCtx := []
    modifiers := []
    cleanups := [commandline.stopProc, userProc "user1", userProc "user2"] }

/-- Options with a single instrumented cleanup procedure. -/
def singleCleanupOptions : commandline.RootCommandOptions :=
  { Name := "testcli"
    Description := "A test CLI application"
    Version := "1.0.0"
    Modifiers := []
    CleanupFuncs := [userProc "user1"] }

/-- The CLI that New builds from singleCleanupOptions. -/
def singleCleanupCLI : commandline.CLI :=
  { use := "testcli"
    version := "1.0.0"
    short := "A test CLI application"
    rootCtx := []
    modifiers := []
    cleanups := [commandline.stopProc, userProc "user1"] }

/-- Options with two modifiers inserting distinct key/value pairs (the
TestContextModifiers scenario: key1/value1 then key2/value2). -/
def modifierOptions : commandline.RootCommandOptions :=
  { Name := "testcli"
    Description := "A test CLI application"
    Version := "1.0.0"
    Modifiers := [mkModifier (GoKey.strKey "key1") (GoVal.vstr "value1"),
                  mkModifier (GoKey.strKey "key2") (GoVal.vstr "value2")]
    CleanupFuncs := [] }

/-- The CLI that New builds from modifierOptions. -/
def modifierCLI : commandline.CLI :=
  { use := "testcli"
    version := "1.0.0"
    short := "A test CLI application"
    rootCtx := []
    modifiers := [mkModifier (GoKey.strKey "key1") (GoVal.vstr "value1"),
                  mkModifier (GoKey.strKey "key2") (GoVal.vstr "value2")]
    cleanups := [commandline.stopProc] }

/-- Options with an empty name (invalid). -/
def noNameOptions : commandline.RootCommandOptions :=
  { Name := ""
    Description := "A test CLI application"
    Version := "1.0.0"
    Modifiers := []
    CleanupFuncs := [] }

end DevToolingGo

namespace DevToolingGo

/-- C9 helper fact: looking up any other key passes through a WithValue pair. -/
theorem ctxValue_withValue_ne (ctx : Ctx) (k k2 : GoKey) (v : GoVal)
    (h : k2 ≠ k) : ctxValue (withValue ctx k v) k2 = ctxValue ctx k2 := by
  simp [withValue, ctxValue, h.symm]

/-- C9: for every context and every non-nil filesystem handle, retrieval
after storage returns exactly the stored handle, and every value stored
under any other key remains retrievable unchanged from the derived
context. -/
theorem rootDir_roundtrip (ctx : Ctx) (f : FS) :
    fileutils.RootDirFromContext (fileutils.ApplyRootDirToContext ctx (some f))
      = Except.ok f ∧
    ∀ k : GoKey, k ≠ GoKey.rootDirKey →
      ctxValue (fileutils.ApplyRootDirToContext ctx (some f)) k = ctxValue ctx k := by
  constructor
  · simp [fileutils.RootDirFromContext, fileutils.ApplyRootDirToContext,
      withValue, ctxValue]
  · intro k hk
    exact ctxValue_withValue_ne ctx GoKey.rootDirKey k (GoVal.vfs f) hk

/-- C9 witness: concrete round trip on a one-file MapFS over a context that
already holds an unrelated string key. -/
theorem rootDir_roundtrip_witness :
    fileutils.RootDirFromContext
        (fileutils.ApplyRootDirToContext
          [(GoKey.strKey "otherKey", GoVal.vstr "otherValue")]
          (some [("file.txt", "content")]))
      = Except.ok [("file.txt", "content")] ∧
    ctxValue
        (fileutils.ApplyRootDirToContext
          [(GoKey.strKey "otherKey", GoVal.vstr "otherValue")]
          (some [("file.txt", "content")]))
        (GoKey.strKey "otherKey")
      = ctxValue [(GoKey.strKey "otherKey", GoVal.vstr "otherValue")]
          (GoKey.strKey "otherKey") := by
  have h := rootDir_roundtrip
    [(GoKey.strKey "otherKey", GoVal.vstr "otherValue")]
    [("file.txt", "content")]
  exact ⟨h.1, h.2 (GoKey.strKey "otherKey") (by decide)⟩

/-- C10: ApplyRootDirToContext accepts a nil handle without validating it
(the nil interface value is stored under the rootDir key), retrieval fails
exactly when the context holds no retrievable filesystem under the rootDir
key (no value, wrong type, or the nil interface), and a stored nil handle is
therefore irretrievable through the public accessor. -/
theorem rootDir_nil_irretrievable (ctx : Ctx) :
    ctxValue (fileutils.ApplyRootDirToContext ctx none) GoKey.rootDirKey
      = some GoVal.vnil ∧
    ((fileutils.RootDirFromContext ctx).isOk = false ↔
      ∀ f : FS, ctxValue ctx GoKey.rootDirKey ≠ some (GoVal.vfs f)) ∧
    fileutils.RootDirFromContext (fileutils.ApplyRootDirToContext ctx none)
      = Except.error "No root dir found in context, bad code path" := by
  refine ⟨?_, ?_, ?_⟩
  · simp [fileutils.ApplyRootDirToContext, withValue, ctxValue]
  · constructor
    · intro h f hf
      simp [fileutils.RootDirFromContext, hf, Except.isOk, Except.toBool] at h
    · intro h
      unfold fileutils.RootDirFromContext
      cases hv : ctxValue ctx GoKey.rootDirKey with
      | none => simp [Except.isOk, Except.toBool]
      | some v =>
        cases v with
        | vfs f => exact absurd hv (h f)
        | vnil => simp [Except.isOk, Except.toBool]
        | vlogger l => simp [Except.isOk, Except.toBool]
        | vstr s => simp [Except.isOk, Except.toBool]
  · simp [fileutils.RootDirFromContext, fileutils.ApplyRootDirToContext,
      withValue, ctxValue]

/-- C10 witness: on the empty context, storing a nil handle stores the nil
interface, retrieval from the empty context fails (and indeed no filesystem
is under the key), and retrieval of the stored nil fails with the panic
message. -/
theorem rootDir_nil_irretrievable_witness :
    ctxValue (fileutils.ApplyRootDirToContext [] none) GoKey.rootDirKey
      = some GoVal.vnil ∧
    (fileutils.RootDirFromContext []).isOk = false ∧
    fileutils.RootDirFromContext (fileutils.ApplyRootDirToContext [] none)
      = Except.error "No root dir found in context, bad code path" := by
  have h := rootDir_nil_irretrievable []
  exact ⟨h.1, h.2.1.mpr (by intro f hf; simp [ctxValue] at hf), h.2.2⟩

end DevToolingGo

namespace DevToolingGo

/-- Helper: a successful New determines the CLI fields and the new process
state (one more subscription, one more goroutine, one sigSubscribe event,
cleanup chain with the stop function prepended). -/
theorem New_ok_elim (options : commandline.RootCommandOptions) (w : World)
    (cli : commandline.CLI)
    (h : (commandline.New options w).1 = Except.ok cli) :
    cli.modifiers = options.Modifiers ∧
    cli.cleanups = commandline.stopProc :: options.CleanupFuncs ∧
    (commandline.New options w).2
      = { w with
            sigSubs := w.sigSubs + 1
            goroutines := w.goroutines + 1
            trace := w.trace ++ [Event.sigSubscribe] } := by
  cases hv : options.validate with
  | error e =>
    exfalso
    simp [commandline.New, hv] at h
  | ok u =>
    simp [commandline.New, hv] at h ⊢
    subst h
    simp

/-- Helper: the pre-run hook leaves the process state untouched. -/
theorem persistentPreRunE_world (cli : commandline.CLI) (v s : Nat)
    (ctx : Ctx) (w : World) :
    (commandline.persistentPreRunE cli v s ctx w).2 = w := rfl

/-- Helper: any number of pre-run hook firings leaves the process state
untouched. -/
theorem fireHookN_world (cli : commandline.CLI) (v s : Nat) :
    ∀ (n : Nat) (ctx : Ctx) (w : World),
      (commandline.fireHookN cli v s n ctx w).2 = w := by
  intro n
  induction n with
  | zero => intro ctx w; rfl
  | succ k ih =>
    intro ctx w
    simp only [commandline.fireHookN]
    exact ih _ _

/-- Helper: running a cleanup chain starts with its head procedure. -/
theorem runProcs_cons (f : CleanupFunc) (fs : List CleanupFunc) (w : World) :
    commandline.runProcs (f :: fs) w = commandline.runProcs fs (f w) := rfl

/-- Helper: a chain of instrumented procedures appends exactly its tags to
the trace, in order, leaving the rest of the state unchanged. -/
theorem runProcs_userProc (tags : List String) (w : World) :
    commandline.runProcs (tags.map userProc) w
      = { w with trace := w.trace ++ tags.map Event.user } := by
  induction tags generalizing w with
  | nil => simp [commandline.runProcs]
  | cons t ts ih =>
    show commandline.runProcs (ts.map userProc) (userProc t w)
      = { w with trace := w.trace ++ List.map Event.user (t :: ts) }
    rw [ih (userProc t w)]
    simp [userProc]

/-- C1: a successful construction installs the signal bridge exactly once
(the subscription count rises by exactly one and exactly one sigSubscribe
event is emitted), and firing the pre-run hook any number of times
afterwards leaves the process state, hence the number of live signal
subscriptions, unchanged: at most one live subscription ever exists per
Lifecycle Manager instance. -/
theorem signal_bridge_installed_once (options : commandline.RootCommandOptions)
    (w : World) (cli : commandline.CLI)
    (h : (commandline.New options w).1 = Except.ok cli)
    (n v s : Nat) (ctx : Ctx) :
    (commandline.New options w).2.sigSubs = w.sigSubs + 1 ∧
    (commandline.New options w).2.trace = w.trace ++ [Event.sigSubscribe] ∧
    (commandline.fireHookN cli v s n ctx (commandline.New options w).2).2
      = (commandline.New options w).2 := by
  obtain ⟨-, -, hw⟩ := New_ok_elim options w cli h
  refine ⟨?_, ?_, ?_⟩
  · rw [hw]
  · rw [hw]
  · exact fireHookN_world cli v s n ctx _

/-- C1 witness: concrete construction from the fresh state followed by three
hook firings. -/
theorem signal_bridge_installed_once_witness :
    (commandline.New demoOptions w0).2.sigSubs = w0.sigSubs + 1 ∧
    (commandline.New demoOptions w0).2.trace = w0.trace ++ [Event.sigSubscribe] ∧
    (commandline.fireHookN demoCLI 1 0 3 []
        (commandline.New demoOptions w0).2).2
      = (commandline.New demoOptions w0).2 :=
  signal_bridge_installed_once demoOptions w0 demoCLI rfl 3 1 0 []

/-- C2: for any construction with a non-empty caller cleanup list, the
combined chain is the internal stop followed by the caller procedures in
registration order; running Cleanup applies the internal teardown first and
then folds every caller procedure over the result with no short-circuit,
and with instrumented procedures the trace records sigStop followed by the
caller tags in registration order. -/
theorem cleanup_internal_teardown_first
    (options : commandline.RootCommandOptions) (w w2 : World)
    (cli : commandline.CLI) (tags : List String)
    (_hne : options.CleanupFuncs ≠ [])
    (h : (commandline.New options w).1 = Except.ok cli)
    (htags : options.CleanupFuncs = tags.map userProc) :
    cli.cleanups = commandline.stopProc :: options.CleanupFuncs ∧
    cli.Cleanup w2
      = commandline.runProcs options.CleanupFuncs (commandline.stopProc w2) ∧
    (cli.Cleanup w2).trace
      = w2.trace ++ [Event.sigStop] ++ tags.map Event.user := by
  obtain ⟨-, hcl, -⟩ := New_ok_elim options w cli h
  refine ⟨hcl, ?_, ?_⟩
  · rw [commandline.CLI.Cleanup, hcl, runProcs_cons]
  · rw [commandline.CLI.Cleanup, hcl, runProcs_cons, htags, runProcs_userProc]
    simp [commandline.stopProc]

/-- C2 witness: the TestCleanup_Order scenario with procedures user1 and
user2, run from the post-construction state. -/
theorem cleanup_internal_teardown_first_witness :
    orderCLI.cleanups = commandline.stopProc :: orderOptions.CleanupFuncs ∧
    orderCLI.Cleanup w1
      = commandline.runProcs orderOptions.CleanupFuncs (commandline.stopProc w1) ∧
    (orderCLI.Cleanup w1).trace
      = w1.trace ++ [Event.sigStop]
          ++ (["user1", "user2"].map Event.user) :=
  cleanup_internal_teardown_first orderOptions w0 w1 orderCLI
    ["user1", "user2"] (List.cons_ne_nil _ _) rfl rfl

end DevToolingGo

namespace DevToolingGo

/-- C3 counterexample: the claim says every verbosity count of at least
three yields trace; at count four the switch falls to its default branch and
the command body observes a warn-level logger. -/
theorem verbosity_clamp_counterexample :
    (commandline.New demoOptions w0).1 = Except.ok demoCLI ∧
    logging.FromContext (commandline.persistentPreRunE demoCLI 4 0 [] w1).1
      = Except.ok { stream := 0, level := Level.warn } ∧
    Level.warn ≠ Level.trace := by
  refine ⟨rfl, rfl, by decide⟩

/-- C3 amended: for a Lifecycle Manager built without modifiers, the logger
observed through the execution context has level warn at count zero, info at
one, debug at two, trace at three, and warn again at every count of at least
four; the level depends on the verbosity count alone (the stream, prior
context and process state are arbitrary). -/
theorem verbosity_level_mapping (options : commandline.RootCommandOptions)
    (w w2 : World) (cli : commandline.CLI) (c s : Nat) (ctx : Ctx)
    (hmods : options.Modifiers = [])
    (h : (commandline.New options w).1 = Except.ok cli) :
    logging.FromContext (commandline.persistentPreRunE cli c s ctx w2).1
      = Except.ok (logging.New s (levelOfVerbosity c)) ∧
    levelOfVerbosity 0 = Level.warn ∧
    levelOfVerbosity 1 = Level.info ∧
    levelOfVerbosity 2 = Level.debug ∧
    levelOfVerbosity 3 = Level.trace ∧
    ∀ c2 : Nat, 4 ≤ c2 → levelOfVerbosity c2 = Level.warn := by
  obtain ⟨hm, -, -⟩ := New_ok_elim options w cli h
  refine ⟨?_, rfl, rfl, rfl, rfl, ?_⟩
  · rw [commandline.persistentPreRunE]
    simp [hm, hmods, logging.FromContext, logging.AddToContext, withValue,
      ctxValue, logging.New]
  · intro c2 hc2
    have h1 : c2 ≠ 1 := by omega
    have h2 : c2 ≠ 2 := by omega
    have h3 : c2 ≠ 3 := by omega
    simp [levelOfVerbosity, h1, h2, h3]

/-- C3 amended witness: count two observed as debug through the pipeline on
a concrete manager, together with the boundary values of the table. -/
theorem verbosity_level_mapping_witness :
    logging.FromContext (commandline.persistentPreRunE demoCLI 2 7 [] w1).1
      = Except.ok (logging.New 7 (levelOfVerbosity 2)) ∧
    levelOfVerbosity 0 = Level.warn ∧
    levelOfVerbosity 1 = Level.info ∧
    levelOfVerbosity 2 = Level.debug ∧
    levelOfVerbosity 3 = Level.trace ∧
    ∀ c2 : Nat, 4 ≤ c2 → levelOfVerbosity c2 = Level.warn :=
  verbosity_level_mapping demoOptions w0 w1 demoCLI 2 7 [] rfl rfl

/-- C4: construction succeeds exactly when both name and version are
non-empty, independently of description, modifiers and cleanup functions;
when the name is empty the error names the name field, and when only the
version is empty the error names the version field. -/
theorem construction_validates_required_fields
    (options : commandline.RootCommandOptions) (w : World) :
    ((commandline.New options w).1.isOk = true ↔
      (options.Name ≠ "" ∧ options.Version ≠ "")) ∧
    (options.Name = "" →
      (commandline.New options w).1
        = Except.error "root command must have name") ∧
    (options.Name ≠ "" → options.Version = "" →
      (commandline.New options w).1
        = Except.error "root command must have version") := by
  by_cases hn : options.Name = "" <;> by_cases hv : options.Version = "" <;>
    simp [commandline.New, commandline.RootCommandOptions.validate, hn, hv,
      Except.isOk, Except.toBool]

/-- C4 witness: concrete valid options construct successfully; concrete
empty-name options fail naming the name field. -/
theorem construction_validates_required_fields_witness :
    ((commandline.New demoOptions w0).1.isOk = true ↔
      (demoOptions.Name ≠ "" ∧ demoOptions.Version ≠ "")) ∧
    (noNameOptions.Name = "" →
      (commandline.New noNameOptions w0).1
        = Except.error "root command must have name") :=
  ⟨(construction_validates_required_fields demoOptions w0).1,
   (construction_validates_required_fields noNameOptions w0).2.1⟩

/-- C5 counterexample: the claim says a second cleanup() call is a no-op;
on a manager with one instrumented caller procedure the second call changes
the state again, replaying the signal teardown and re-running the caller
procedure (its tag appears twice in the trace). -/
theorem cleanup_idempotent_counterexample :
    (commandline.New singleCleanupOptions w0).1 = Except.ok singleCleanupCLI ∧
    singleCleanupCLI.Cleanup (singleCleanupCLI.Cleanup w1)
      ≠ singleCleanupCLI.Cleanup w1 ∧
    (singleCleanupCLI.Cleanup (singleCleanupCLI.Cleanup w1)).trace
      = [Event.sigSubscribe, Event.sigStop, Event.user "user1",
         Event.sigStop, Event.user "user1"] := by
  refine ⟨rfl, by decide, by decide⟩

/-- C5 amended: cleanup() is not idempotent: a second call after the first
re-executes the whole chain, replaying the signal teardown and re-running
every caller-supplied cleanup procedure in registration order, appending one
more full pass to the trace. -/
theorem cleanup_second_call_reruns_chain
    (options : commandline.RootCommandOptions) (w : World)
    (cli : commandline.CLI) (tags : List String)
    (h : (commandline.New options w).1 = Except.ok cli)
    (htags : options.CleanupFuncs = tags.map userProc) :
    (cli.Cleanup (cli.Cleanup (commandline.New options w).2)).trace
      = w.trace ++ [Event.sigSubscribe]
          ++ ([Event.sigStop] ++ tags.map Event.user)
          ++ ([Event.sigStop] ++ tags.map Event.user) := by
  obtain ⟨-, hcl, hw⟩ := New_ok_elim options w cli h
  rw [hw, commandline.CLI.Cleanup, commandline.CLI.Cleanup, hcl, htags,
    runProcs_cons, runProcs_userProc, runProcs_cons, runProcs_userProc]
  simp [commandline.stopProc]

/-- C5 amended witness: double cleanup on the concrete single-procedure
manager appends two full passes of the chain. -/
theorem cleanup_second_call_reruns_chain_witness :
    (singleCleanupCLI.Cleanup
        (singleCleanupCLI.Cleanup
          (commandline.New singleCleanupOptions w0).2)).trace
      = w0.trace ++ [Event.sigSubscribe]
          ++ ([Event.sigStop] ++ ["user1"].map Event.user)
          ++ ([Event.sigStop] ++ ["user1"].map Event.user) :=
  cleanup_second_call_reruns_chain singleCleanupOptions w0 singleCleanupCLI
    ["user1"] rfl rfl

/-- C6: on a successfully constructed manager, applying Cleanup directly to
the post-construction state (Execute never invoked) is a total operation in
this model (the source loop ranges over a never-nil slice and can touch no
nil function, so no panic path exists) and every instrumented caller
procedure still runs, in order, after the internal teardown. -/
theorem cleanup_without_execute
    (options : commandline.RootCommandOptions) (w : World)
    (cli : commandline.CLI) (tags : List String)
    (h : (commandline.New options w).1 = Except.ok cli)
    (htags : options.CleanupFuncs = tags.map userProc) :
    (cli.Cleanup (commandline.New options w).2).trace
      = w.trace ++ [Event.sigSubscribe, Event.sigStop]
          ++ tags.map Event.user := by
  obtain ⟨-, hcl, hw⟩ := New_ok_elim options w cli h
  rw [hw, commandline.CLI.Cleanup, hcl, htags, runProcs_cons,
    runProcs_userProc]
  simp [commandline.stopProc]

/-- C6 witness: the TestCleanup_WithoutExecute scenario: construct with one
caller procedure and clean up immediately; the procedure runs. -/
theorem cleanup_without_execute_witness :
    (singleCleanupCLI.Cleanup (commandline.New singleCleanupOptions w0).2).trace
      = w0.trace ++ [Event.sigSubscribe, Event.sigStop]
          ++ ["user1"].map Event.user :=
  cleanup_without_execute singleCleanupOptions w0 singleCleanupCLI
    ["user1"] rfl rfl

/-- C7: when the options fail validation, New returns exactly the
validation error naming the missing field and the process state is
unchanged: no signal subscription, no goroutine, no trace event is produced
on the validation-failure path. -/
theorem construction_atomic_on_error
    (options : commandline.RootCommandOptions) (w : World)
    (h : options.Name = "" ∨ options.Version = "") :
    commandline.New options w
      = (Except.error
          (if options.Name = "" then "root command must have name"
           else "root command must have version"), w) := by
  by_cases hn : options.Name = ""
  · simp [commandline.New, commandline.RootCommandOptions.validate, hn]
  · have hv : options.Version = "" := h.resolve_left hn
    simp [commandline.New, commandline.RootCommandOptions.validate, hn, hv]

/-- C7 witness: empty-name options leave the fresh process state untouched
and produce exactly the name error. -/
theorem construction_atomic_on_error_witness :
    commandline.New noNameOptions w0
      = (Except.error
          (if noNameOptions.Name = "" then "root command must have name"
           else "root command must have version"), w0) :=
  construction_atomic_on_error noNameOptions w0 (Or.inl rfl)

/-- C8: the pre-run hook applies the modifiers in registration order to the
context that already carries the derived logger, and for two modifiers
inserting distinct key/value pairs the resulting execution context yields
both pairs and still the logger (modification strips no stored value). -/
theorem modifiers_applied_in_order
    (options : commandline.RootCommandOptions) (w w2 : World)
    (cli : commandline.CLI) (k1 k2 : GoKey) (v1 v2 : GoVal)
    (c s : Nat) (ctx : Ctx)
    (hmods : options.Modifiers = [mkModifier k1 v1, mkModifier k2 v2])
    (h : (commandline.New options w).1 = Except.ok cli)
    (h12 : k1 ≠ k2) (hk1 : k1 ≠ GoKey.loggerKey)
    (hk2 : k2 ≠ GoKey.loggerKey) :
    (commandline.persistentPreRunE cli c s ctx w2).1
      = withValue
          (withValue
            (logging.AddToContext ctx (logging.New s (levelOfVerbosity c)))
            k1 v1)
          k2 v2 ∧
    ctxValue (commandline.persistentPreRunE cli c s ctx w2).1 k1 = some v1 ∧
    ctxValue (commandline.persistentPreRunE cli c s ctx w2).1 k2 = some v2 ∧
    ctxValue (commandline.persistentPreRunE cli c s ctx w2).1 GoKey.loggerKey
      = some (GoVal.vlogger (logging.New s (levelOfVerbosity c))) := by
  obtain ⟨hm, -, -⟩ := New_ok_elim options w cli h
  have hctx : (commandline.persistentPreRunE cli c s ctx w2).1
      = withValue
          (withValue
            (logging.AddToContext ctx (logging.New s (levelOfVerbosity c)))
            k1 v1)
          k2 v2 := by
    rw [commandline.persistentPreRunE]
    simp [hm, hmods, mkModifier]
  refine ⟨hctx, ?_, ?_, ?_⟩
  · rw [hctx]
    simp [withValue, ctxValue, h12.symm]
  · rw [hctx]
    simp [withValue, ctxValue]
  · rw [hctx]
    simp [withValue, logging.AddToContext, ctxValue, hk1, hk2]

/-- C8 witness: the TestContextModifiers scenario (key1/value1 then
key2/value2) observed through a concrete manager. -/
theorem modifiers_applied_in_order_witness :
    (commandline.persistentPreRunE modifierCLI 0 0 [] w1).1
      = withValue
          (withValue
            (logging.AddToContext [] (logging.New 0 (levelOfVerbosity 0)))
            (GoKey.strKey "key1") (GoVal.vstr "value1"))
          (GoKey.strKey "key2") (GoVal.vstr "value2") ∧
    ctxValue (commandline.persistentPreRunE modifierCLI 0 0 [] w1).1
        (GoKey.strKey "key1") = some (GoVal.vstr "value1") ∧
    ctxValue (commandline.persistentPreRunE modifierCLI 0 0 [] w1).1
        (GoKey.strKey "key2") = some (GoVal.vstr "value2") ∧
    ctxValue (commandline.persistentPreRunE modifierCLI 0 0 [] w1).1
        GoKey.loggerKey
      = some (GoVal.vlogger (logging.New 0 (levelOfVerbosity 0))) :=
  modifiers_applied_in_order modifierOptions w0 w1 modifierCLI
    (GoKey.strKey "key1") (GoKey.strKey "key2")
    (GoVal.vstr "value1") (GoVal.vstr "value2") 0 0 [] rfl rfl
    (by decide) (by decide) (by decide)

end DevToolingGo
